import Mathlib

/-!
Verification development for the `crawler-best` repository
(`brain.py`, `d_crawler.py`).

The Python code is shallowly embedded as executable Lean definitions.
Network and LLM calls are nondeterministic from the program's point of
view, so they are modelled as oracle functions (indexed by the call
number where a call site can be reached several times); everything the
program itself computes — string handling, URL resolution, the adaptive
pagination loop, dispatch, error-path defaults — is translated directly
from the source.

Python JSON values are modelled by the inductive `Json` below (numbers
as `Int`; the claims under study only involve the integers 0 and 1, so
float/int distinctions are irrelevant).  A value of type `Option Json`
models the outcome of `json.loads` applied to an LLM response: `none`
is the exception path (either the HTTP/LLM call or the parse raised),
`some j` is a successfully parsed value.
-/

/-- Python JSON values (`json.loads` results / `json.dumps` inputs). -/
inductive Json where
  | null : Json
  | bool : Bool → Json
  | num : Int → Json
  | str : String → Json
  | arr : List Json → Json
  | obj : List (String × Json) → Json
deriving BEq

/-- First value bound to key `k` in a Python dict modelled as an
association list (`json.loads` produces unique keys). -/
def lookupField (fields : List (String × Json)) (k : String) : Option Json :=
  match fields with
  | [] => none
  | (k', v) :: rest => if k' = k then some v else lookupField rest k

/-- Python dict assignment `d[k] = v`: replace the value if the key is
present, otherwise append the binding. -/
def setKey (fields : List (String × Json)) (k : String) (v : Json) :
    List (String × Json) :=
  if fields.any (fun p => p.1 == k) then
    fields.map (fun p => if p.1 = k then (k, v) else p)
  else fields ++ [(k, v)]

/-! ### String primitives

Python string operations used by the code, implemented over `List Char`
so that concrete witnesses evaluate inside the kernel. -/

/-- The ASCII whitespace characters stripped by Python `str.strip()`
(the code never feeds it exotic Unicode whitespace). -/
def pyWs (c : Char) : Bool :=
  c == ' ' || c == '\t' || c == '\n' || c == '\r' || c == '\x0b' || c == '\x0c'

/-- Python `s.strip()`. -/
def strip (s : String) : String :=
  String.mk (((s.data.dropWhile pyWs).reverse.dropWhile pyWs).reverse)

/-- Python `s.startswith(p)`. -/
def strStartsWith (s p : String) : Bool :=
  p.data.isPrefixOf s.data

/-- Helper for `strContains`: does `pat` occur in `s` as a contiguous
sublist? -/
def listContainsSub : List Char → List Char → Bool
  | [], pat => pat.isEmpty
  | c :: rest, pat => pat.isPrefixOf (c :: rest) || listContainsSub rest pat

/-- Python substring test `pat in s`. -/
def strContains (s pat : String) : Bool :=
  listContainsSub s.data pat.data

/-- Split a character list at the first occurrence of `sep`;
`none` when `sep` does not occur. -/
def splitFirstChar (sep : Char) : List Char → Option (List Char × List Char)
  | [] => none
  | c :: rest =>
    if c == sep then some ([], rest)
    else
      match splitFirstChar sep rest with
      | some (a, b) => some (c :: a, b)
      | none => none

/-- Python `s.split(sep)` for a one-character separator. -/
def splitOnChar (sep : Char) : List Char → List (List Char)
  | [] => [[]]
  | c :: rest =>
    let r := splitOnChar sep rest
    if c == sep then [] :: r
    else
      match r with
      | [] => [[c]]
      | h :: t => (c :: h) :: t

/-- `'/'.join(segments)` over character lists. -/
def joinSegs : List (List Char) → List Char
  | [] => []
  | [s] => s
  | s :: rest => s ++ '/' :: joinSegs rest

/-- ASCII lowering, as Python `str.lower()` acts on scheme characters. -/
def pyLowerChar (c : Char) : Char :=
  if 'A' ≤ c ∧ c ≤ 'Z' then Char.ofNat (c.toNat + 32) else c

/-! ### `urllib.parse` model

`_find_next_page` calls `urlparse(current_url)` for `.scheme` and
`.netloc`, then `urljoin(f"{scheme}://{netloc}", next_link)` on a link
that starts with `"/"`.  The definitions below model exactly those two
stdlib behaviours (RFC 3986 resolution as implemented by CPython's
`urllib.parse`, specialised to this call pattern). -/

/-- The scheme and network-location components of a parsed URL. -/
structure UrlParts where
  scheme : String
  netloc : String
deriving BEq

/-- Characters CPython allows in a URL scheme. -/
def isSchemeChar (c : Char) : Bool :=
  c.isAlphanum || c == '+' || c == '-' || c == '.'

/-- Model of `urllib.parse.urlparse(url).scheme` / `.netloc`: the part
before the first `':'` is the (lowercased) scheme when it is a
nonempty run of scheme characters starting with a letter; the netloc
follows a `"//"` and extends to the next `'/'`, `'?'` or `'#'`. -/
def urlparse_sn (url : String) : UrlParts :=
  let step : List Char → String × List Char := fun cs =>
    match splitFirstChar ':' cs with
    | some (before, after) =>
      if before ≠ [] ∧ (before.headD 'a').isAlpha ∧ before.all isSchemeChar then
        (String.mk (before.map pyLowerChar), after)
      else ("", cs)
    | none => ("", cs)
  let (scheme, rest) := step url.data
  let netloc :=
    if ['/', '/'].isPrefixOf rest then
      String.mk ((rest.drop 2).takeWhile
        (fun c => !(c == '/' || c == '?' || c == '#')))
    else ""
  ⟨scheme, netloc⟩

/-- CPython's dot-segment resolution for an absolute path split at
`'/'`: `".."` pops, `"."` is skipped, and a trailing dot segment
appends an empty segment. -/
def resolveDots (segs : List (List Char)) : List (List Char) :=
  let folded := segs.foldl
    (fun acc seg =>
      if seg = ['.', '.'] then acc.dropLast
      else if seg = ['.'] then acc
      else acc ++ [seg]) []
  match segs.getLast? with
  | some s => if s = ['.', '.'] ∨ s = ['.'] then folded ++ [[]] else folded
  | none => folded

/-- Normalise an absolute path (no query/fragment) the way
`urljoin` does: resolve dot segments and fall back to `"/"` when the
result is empty. -/
def normAbsPath (path : List Char) : List Char :=
  let j := joinSegs (resolveDots (splitOnChar '/' path))
  if j = [] then ['/'] else j

/-- The path component of a relative reference: `urljoin` skips segment
resolution (and the `or '/'` fallback) when the path is empty, keeping
the base's empty path. -/
def pathPart (path : List Char) : List Char :=
  if path = [] then [] else normAbsPath path

/-- Split off the fragment (first `'#'`) and query (first `'?'`) before
path normalisation, and glue them back afterwards, as `urlparse` /
`urlunparse` do inside `urljoin`. -/
def joinRef (r : List Char) : List Char :=
  match splitFirstChar '#' r with
  | some (pre, frag) =>
    (match splitFirstChar '?' pre with
     | some (path, query) => pathPart path ++ '?' :: query
     | none => pathPart pre) ++ '#' :: frag
  | none =>
    match splitFirstChar '?' r with
    | some (path, query) => pathPart path ++ '?' :: query
    | none => pathPart r

/-- Model of `urllib.parse.urljoin(f"{scheme}://{netloc}", link)` for a
`link` starting with `"/"`: a `"//"` link with a nonempty host is a
network-path reference and keeps its own host (only the scheme is taken
from the base); any other absolute reference keeps the base's host and
replaces its path after dot-segment resolution. -/
def urljoin_slash (scheme netloc link : String) : String :=
  if strStartsWith link "//" then
    let host := (link.data.drop 2).takeWhile
      (fun c => !(c == '/' || c == '?' || c == '#'))
    if host ≠ [] then scheme ++ ":" ++ link
    else scheme ++ "://" ++ netloc ++ String.mk (joinRef (link.data.drop 2))
  else scheme ++ "://" ++ netloc ++ String.mk (joinRef link.data)

/-! ### `CrawlerEngine._find_next_page` (d_crawler.py lines 251-292)

The LLM chat call is the oracle: `llmResp = none` models the
`except Exception` path (the API call raised), `some content` models a
successful response with message content `content`. -/

/-- `_find_next_page`, with the raw LLM response as input. -/
def find_next_page (llmResp : Option String) (current_url : String) :
    Option String :=
  match llmResp with
  | none => none
  | some content =>
    let next_link := strip content
    if strContains next_link "None" || next_link == "" then none
    else if strStartsWith next_link "/" then
      let parsed := urlparse_sn current_url
      some (urljoin_slash parsed.scheme parsed.netloc next_link)
    else some next_link

/-! ### `brain.py` operations

Each method wraps a single LLM chat call in `try/except` and returns a
fixed default on any failure.  The oracle input `Option Json` is the
outcome of `json.loads(response.choices[0].message.content)`: `none`
when the API call or the parse raised, `some j` on success. -/

/-- `IntentAnalyzer.analyze` (brain.py lines 32-62).  On success the
code returns `result.get("strategy", "summary")`, which is an arbitrary
JSON value; `result.get` on a non-dict raises `AttributeError`, which
the bare handler turns into the `"summary"` default. -/
def IntentAnalyzer_analyze (resp : Option Json) : Json :=
  match resp with
  | some (Json.obj fields) =>
    match lookupField fields "strategy" with
    | some v => v
    | none => Json.str "summary"
  | _ => Json.str "summary"

/-- The four field kinds `SchemaGenerator.generate_schema` can place in
a generated Pydantic model: `str`, `float`, `bool`, `List[str]`
(all required fields). -/
inductive FieldType where
  | fstr : FieldType
  | fnum : FieldType
  | fbool : FieldType
  | farr : FieldType
deriving BEq

/-- The type mapped from one schema entry: `"number" ↦ float`,
`"boolean" ↦ bool`, `"array" ↦ List[str]`, anything else (including
non-string values, whose `==` comparisons are all false) `↦ str`. -/
def fieldTypeOf (v : Json) : FieldType :=
  if v == Json.str "number" then FieldType.fnum
  else if v == Json.str "boolean" then FieldType.fbool
  else if v == Json.str "array" then FieldType.farr
  else FieldType.fstr

/-- `SchemaGenerator.generate_schema` (brain.py lines 81-141), as the
field list of the created Pydantic model.  `schema_json.items()` on a
non-dict raises, so any non-object parse lands on the fallback schema
`FallbackSchema(content: str)`. -/
def SchemaGenerator_generate_schema (resp : Option Json) :
    List (String × FieldType) :=
  match resp with
  | some (Json.obj fields) => fields.map (fun p => (p.1, fieldTypeOf p.2))
  | _ => [("content", FieldType.fstr)]

/-- The sanity check in `ConfigExtractor.extract_config`:
`config.get("strategy") in ["simple", "deep", "adaptive"]`. -/
def validStrategy (v : Option Json) : Bool :=
  match v with
  | some (Json.str s) => s == "simple" || s == "deep" || s == "adaptive"
  | _ => false

/-- The default configuration returned by `ConfigExtractor.extract_config`
on any failure. -/
def defaultConfig : List (String × Json) :=
  [("strategy", Json.str "simple"), ("target_count", Json.num 0),
   ("max_pages", Json.num 1)]

/-- `ConfigExtractor.extract_config` (brain.py lines 159-205).  On a
successful parse of a JSON object, an out-of-range `"strategy"` value is
overwritten by `"simple"`; `config.get` on a non-dict raises inside the
`try`, so a non-object parse also yields the default config. -/
def ConfigExtractor_extract_config (resp : Option Json) :
    List (String × Json) :=
  match resp with
  | some (Json.obj fields) =>
    if validStrategy (lookupField fields "strategy") then fields
    else setKey fields "strategy" (Json.str "simple")
  | _ => defaultConfig

/-! ### `CrawlerEngine` extraction paths (d_crawler.py) -/

/-- `CrawlerEngine._extract_with_llm` (lines 294-335): returns the raw
LLM message content, or the literal string `"{}"` when the call
raised. -/
def extract_with_llm (llmResp : Option String) : String :=
  match llmResp with
  | none => "\x7b\x7d"
  | some content => content

/-- The outcome of one `crawler.arun` call. -/
structure CrawlResult where
  success : Bool
  markdown : String
  error_message : String

/-- The per-page item contribution in `_run_adaptive_extraction`
(lines 227-233): `items = data.get("data", [])` followed by
`all_items.extend(items)` inside one `try`.  A failed parse, a non-dict
top level (`.get` raises `AttributeError`) or a non-iterable `"data"`
value (`extend` raises `TypeError`) is swallowed and contributes
nothing; `extend` over a string iterates its characters and over a
dict its keys. -/
def adaptiveContrib (parsed : Option Json) : List Json :=
  match parsed with
  | some (Json.obj fields) =>
    match lookupField fields "data" with
    | none => []
    | some (Json.arr xs) => xs
    | some (Json.str s) => s.data.map (fun c => Json.str (String.mk [c]))
    | some (Json.obj g) => g.map (fun p => Json.str p.1)
    | some _ => []
  | _ => []

/-- The per-page item contribution in `_run_deep_extraction`
(lines 189-194): items are merged only when the parse succeeds, the top
level is a dict containing `"data"`, and that value is a list
(`isinstance(data["data"], list)`). -/
def deepContrib (parsed : Option Json) : List Json :=
  match parsed with
  | some (Json.obj fields) =>
    match lookupField fields "data" with
    | some (Json.arr xs) => xs
    | _ => []
  | _ => []

/-- Oracles for one run of `_run_adaptive_extraction`, indexed by the
iteration number (the value of `pages_crawled` before its increment):
`crawl i` is the `crawler.arun` result, `extractParsed i` the
`json.loads` outcome on the `_extract_with_llm` reply, and `nextResp i`
the raw LLM reply inside `_find_next_page` (`none` when that call
raised). -/
structure AdaptiveEnv where
  crawl : Nat → CrawlResult
  extractParsed : Nat → Option Json
  nextResp : Nat → Option String

/-- Observable outcome of the adaptive loop: the URLs passed to
`crawler.arun` in order, the per-page extracted item lists of the pages
that were processed, and the final `all_items`. -/
structure AdaptiveOut where
  trace : List String
  pages : List (List Json)
  items : List Json

/-- The while-loop of `_run_adaptive_extraction` (d_crawler.py lines
210-247), translated clause by clause.  State: the candidate URL, the
accumulated `all_items`, the `visited_urls` set (as a list) and the
`pages_crawled` counter.  The `trace` and `pages` fields of the result
record, for the theorems, which URLs were handed to `crawler.arun` and
what each processed page contributed. -/
def adaptiveLoop (env : AdaptiveEnv) (max_pages target_count : Nat)
    (current_url : String) (all_items : List Json)
    (visited : List String) (pages_crawled : Nat) : AdaptiveOut :=
  if pages_crawled < max_pages then
    if current_url ∈ visited then ⟨[], [], all_items⟩
    else
      let result := env.crawl pages_crawled
      if result.success = false then ⟨[current_url], [], all_items⟩
      else
        let items := adaptiveContrib (env.extractParsed pages_crawled)
        let all' := all_items ++ items
        if 0 < target_count ∧ target_count ≤ all'.length then
          ⟨[current_url], [items], all'⟩
        else
          match find_next_page (env.nextResp pages_crawled) current_url with
          | none => ⟨[current_url], [items], all'⟩
          | some next =>
            let rest := adaptiveLoop env max_pages target_count next all'
              (current_url :: visited) (pages_crawled + 1)
            ⟨current_url :: rest.trace, items :: rest.pages, rest.items⟩
  else ⟨[], [], all_items⟩
termination_by max_pages - pages_crawled
decreasing_by simp_wf; omega

/-- `_run_adaptive_extraction` from its initial state: empty item list,
empty visited set, `pages_crawled = 0`. -/
def adaptiveRun (env : AdaptiveEnv) (start_url : String)
    (max_pages target_count : Nat) : AdaptiveOut :=
  adaptiveLoop env max_pages target_count start_url [] [] 0

/-! ### `json.dumps` model

The exact text (separators, `indent=2`) is irrelevant to the claims;
what matters is that both multi-page extractions return the
serialisation of `{"data": all_items}`. -/

mutual

/-- Serialisation of a JSON value. -/
def Json.dumps : Json → String
  | Json.null => "null"
  | Json.bool b => if b then "true" else "false"
  | Json.num n => toString n
  | Json.str s => "\"" ++ s ++ "\""
  | Json.arr xs => "[" ++ Json.dumpsArr xs ++ "]"
  | Json.obj fs => "\x7b" ++ Json.dumpsObj fs ++ "\x7d"

/-- Comma-separated serialisation of array elements. -/
def Json.dumpsArr : List Json → String
  | [] => ""
  | [x] => Json.dumps x
  | x :: xs => Json.dumps x ++ ", " ++ Json.dumpsArr xs

/-- Comma-separated serialisation of object members. -/
def Json.dumpsObj : List (String × Json) → String
  | [] => ""
  | [(k, v)] => "\"" ++ k ++ "\": " ++ Json.dumps v
  | (k, v) :: fs => "\"" ++ k ++ "\": " ++ Json.dumps v ++ ", " ++ Json.dumpsObj fs

end

/-- `_run_adaptive_extraction` (lines 198-249): run the loop and return
`json.dumps({"data": all_items})`. -/
def run_adaptive_extraction (env : AdaptiveEnv) (start_url : String)
    (max_pages target_count : Nat) : String :=
  Json.dumps (Json.obj
    [("data", Json.arr (adaptiveRun env start_url max_pages target_count).items)])

/-- Result list of one `_run_deep_extraction` crawl stream together
with the per-page contributions. -/
structure DeepOut where
  pages : List (List Json)
  items : List Json

/-- The `async for` loop of `_run_deep_extraction` (lines 184-194) over
the stream of crawl results produced by the `BestFirstCrawlingStrategy`;
`dex i` is the `json.loads` outcome for the `i`-th stream element (only
consulted when that element was crawled successfully). -/
def deepLoop (dex : Nat → Option Json) : List CrawlResult → Nat → DeepOut
  | [], _ => ⟨[], []⟩
  | r :: rs, i =>
    if r.success then
      let its := deepContrib (dex i)
      let rest := deepLoop dex rs (i + 1)
      ⟨its :: rest.pages, its ++ rest.items⟩
    else deepLoop dex rs (i + 1)

/-- `_run_deep_extraction` (lines 154-196): merge per-page items and
serialise `{"data": all_items}`. -/
def run_deep_extraction (results : List CrawlResult)
    (dex : Nat → Option Json) : String :=
  Json.dumps (Json.obj
    [("data", Json.arr (deepLoop dex results 0).items)])

/-- `_run_simple_extraction` (lines 140-152): one crawl, then one LLM
extraction; a failed crawl returns an error string. -/
def run_simple_extraction (url : String) (result : CrawlResult)
    (llmResp : Option String) : String :=
  if result.success = false then
    "Error crawling " ++ url ++ ": " ++ result.error_message
  else extract_with_llm llmResp

/-- Which strategy handler `run_extraction` dispatched to; recorded
alongside the returned string so that the dispatch theorems can speak
about it. -/
inductive Handler where
  | deepH : Handler
  | adaptiveH : Handler
  | simpleH : Handler
deriving BEq

/-- All the oracles one `run_extraction` call may consume, one bundle
per strategy handler. -/
structure ExtractionEnv where
  adaptive : AdaptiveEnv
  deepResults : List CrawlResult
  deepExtract : Nat → Option Json
  simpleCrawl : CrawlResult
  simpleLLM : Option String

/-- `CrawlerEngine.run_extraction` (lines 116-138).  `self.api_key` is
`Option String`; Python's `if not self.api_key` is true for `None` and
for the empty string.  `strategy == CrawlingStrategy.DEEP` compares the
argument with the string value `"deep"` (a `str` enum), likewise for
`"adaptive"`; every other value falls through to the simple handler.
The second component records which handler ran (`none`: none did). -/
def run_extraction (api_key : Option String) (url : String)
    (strategy : String) (max_pages target_count : Nat)
    (env : ExtractionEnv) : String × Option Handler :=
  if api_key = none ∨ api_key = some "" then
    ("Error: API Key is required for extraction.", none)
  else if strategy == "deep" then
    (run_deep_extraction env.deepResults env.deepExtract, some Handler.deepH)
  else if strategy == "adaptive" then
    (run_adaptive_extraction env.adaptive url max_pages target_count,
     some Handler.adaptiveH)
  else
    (run_simple_extraction url env.simpleCrawl env.simpleLLM,
     some Handler.simpleH)

/-! ### Loop invariants of the adaptive crawl -/

/-- Each loop iteration crawls at most one page and increments
`pages_crawled`, so at most `max_pages - pages_crawled` URLs are ever
handed to the crawler from a given state. -/
theorem adaptiveLoop_trace_le (env : AdaptiveEnv) (m t : Nat)
    (url : String) (items : List Json) (vis : List String) (p : Nat) :
    (adaptiveLoop env m t url items vis p).trace.length ≤ m - p := by
  induction url, items, vis, p using adaptiveLoop.induct env m t with
  | case1 url items vis p h1 h2 =>
    rw [adaptiveLoop]; simp [h1, h2]
  | case2 url items vis p h1 h2 r h3 =>
    rw [adaptiveLoop]
    simp [h1, h2, show (env.crawl p).success = false from h3]
    omega
  | case3 url items vis p h1 h2 r h3 its all h4 =>
    have h4' : 0 < t ∧ t ≤ items.length + (adaptiveContrib (env.extractParsed p)).length := by
      simpa using
        (show 0 < t ∧ t ≤ (items ++ adaptiveContrib (env.extractParsed p)).length from h4)
    rw [adaptiveLoop]
    simp [h1, h2, show ¬(env.crawl p).success = false from h3, h4'.1, h4'.2]
    omega
  | case4 url items vis p h1 h2 r h3 its all h4 h5 =>
    have h4' : ¬(0 < t ∧ t ≤ items.length + (adaptiveContrib (env.extractParsed p)).length) := by
      simpa using
        (show ¬(0 < t ∧ t ≤ (items ++ adaptiveContrib (env.extractParsed p)).length) from h4)
    rw [adaptiveLoop]
    simp [h1, h2, show ¬(env.crawl p).success = false from h3, h4', h5]
    omega
  | case5 url items vis p h1 h2 r h3 its all h4 nxt h5 ih =>
    have h4' : ¬(0 < t ∧ t ≤ items.length + (adaptiveContrib (env.extractParsed p)).length) := by
      simpa using
        (show ¬(0 < t ∧ t ≤ (items ++ adaptiveContrib (env.extractParsed p)).length) from h4)
    have ih' : (adaptiveLoop env m t nxt
        (items ++ adaptiveContrib (env.extractParsed p)) (url :: vis)
        (p + 1)).trace.length ≤ m - (p + 1) := ih
    rw [adaptiveLoop]
    simp [h1, h2, show ¬(env.crawl p).success = false from h3, h4', h5]
    omega
  | case6 url items vis p h1 =>
    rw [adaptiveLoop]; simp [h1]

/-- The crawled trace avoids the incoming `visited` set and is itself
duplicate-free: a URL is added to `visited` exactly when it is about to
be crawled, and the loop breaks on a visited candidate before calling
the crawler. -/
theorem adaptiveLoop_trace_nodup_aux (env : AdaptiveEnv) (m t : Nat)
    (url : String) (items : List Json) (vis : List String) (p : Nat) :
    (adaptiveLoop env m t url items vis p).trace.Nodup ∧
      ∀ u ∈ (adaptiveLoop env m t url items vis p).trace, u ∉ vis := by
  induction url, items, vis, p using adaptiveLoop.induct env m t with
  | case1 url items vis p h1 h2 =>
    rw [adaptiveLoop]; simp [h1, h2]
  | case2 url items vis p h1 h2 r h3 =>
    rw [adaptiveLoop]
    simp [h1, h2, show (env.crawl p).success = false from h3]
  | case3 url items vis p h1 h2 r h3 its all h4 =>
    have h4' : 0 < t ∧ t ≤ items.length + (adaptiveContrib (env.extractParsed p)).length := by
      simpa using
        (show 0 < t ∧ t ≤ (items ++ adaptiveContrib (env.extractParsed p)).length from h4)
    rw [adaptiveLoop]
    simp [h1, h2, show ¬(env.crawl p).success = false from h3, h4'.1, h4'.2]
  | case4 url items vis p h1 h2 r h3 its all h4 h5 =>
    have h4' : ¬(0 < t ∧ t ≤ items.length + (adaptiveContrib (env.extractParsed p)).length) := by
      simpa using
        (show ¬(0 < t ∧ t ≤ (items ++ adaptiveContrib (env.extractParsed p)).length) from h4)
    rw [adaptiveLoop]
    simp [h1, h2, show ¬(env.crawl p).success = false from h3, h4', h5]
  | case5 url items vis p h1 h2 r h3 its all h4 nxt h5 ih =>
    have h4' : ¬(0 < t ∧ t ≤ items.length + (adaptiveContrib (env.extractParsed p)).length) := by
      simpa using
        (show ¬(0 < t ∧ t ≤ (items ++ adaptiveContrib (env.extractParsed p)).length) from h4)
    have ih' : (adaptiveLoop env m t nxt
          (items ++ adaptiveContrib (env.extractParsed p)) (url :: vis)
          (p + 1)).trace.Nodup ∧
        ∀ u ∈ (adaptiveLoop env m t nxt
          (items ++ adaptiveContrib (env.extractParsed p)) (url :: vis)
          (p + 1)).trace, u ∉ url :: vis := ih
    rw [adaptiveLoop]
    simp [h1, h2, show ¬(env.crawl p).success = false from h3, h4', h5]
    obtain ⟨ihn, ihf⟩ := ih'
    refine ⟨⟨fun hmem => (ihf url hmem) (List.mem_cons_self _ _), ihn⟩, ?_⟩
    intro a ha hv
    exact (ihf a ha) (List.mem_cons_of_mem _ hv)
  | case6 url items vis p h1 =>
    rw [adaptiveLoop]; simp [h1]

/-- The final `all_items` is the initial list followed by the per-page
contributions in page-visit order. -/
theorem adaptiveLoop_items_join (env : AdaptiveEnv) (m t : Nat)
    (url : String) (items : List Json) (vis : List String) (p : Nat) :
    (adaptiveLoop env m t url items vis p).items =
      items ++ (adaptiveLoop env m t url items vis p).pages.join := by
  induction url, items, vis, p using adaptiveLoop.induct env m t with
  | case1 url items vis p h1 h2 =>
    rw [adaptiveLoop]; simp [h1, h2]
  | case2 url items vis p h1 h2 r h3 =>
    rw [adaptiveLoop]
    simp [h1, h2, show (env.crawl p).success = false from h3]
  | case3 url items vis p h1 h2 r h3 its all h4 =>
    have h4' : 0 < t ∧ t ≤ items.length + (adaptiveContrib (env.extractParsed p)).length := by
      simpa using
        (show 0 < t ∧ t ≤ (items ++ adaptiveContrib (env.extractParsed p)).length from h4)
    rw [adaptiveLoop]
    simp [h1, h2, show ¬(env.crawl p).success = false from h3, h4'.1, h4'.2]
  | case4 url items vis p h1 h2 r h3 its all h4 h5 =>
    have h4' : ¬(0 < t ∧ t ≤ items.length + (adaptiveContrib (env.extractParsed p)).length) := by
      simpa using
        (show ¬(0 < t ∧ t ≤ (items ++ adaptiveContrib (env.extractParsed p)).length) from h4)
    rw [adaptiveLoop]
    simp [h1, h2, show ¬(env.crawl p).success = false from h3, h4', h5]
  | case5 url items vis p h1 h2 r h3 its all h4 nxt h5 ih =>
    have h4' : ¬(0 < t ∧ t ≤ items.length + (adaptiveContrib (env.extractParsed p)).length) := by
      simpa using
        (show ¬(0 < t ∧ t ≤ (items ++ adaptiveContrib (env.extractParsed p)).length) from h4)
    have ih' : (adaptiveLoop env m t nxt
          (items ++ adaptiveContrib (env.extractParsed p)) (url :: vis)
          (p + 1)).items =
        (items ++ adaptiveContrib (env.extractParsed p)) ++
          (adaptiveLoop env m t nxt
            (items ++ adaptiveContrib (env.extractParsed p)) (url :: vis)
            (p + 1)).pages.join := ih
    rw [adaptiveLoop]
    simp [h1, h2, show ¬(env.crawl p).success = false from h3, h4', h5, ih']
  | case6 url items vis p h1 =>
    rw [adaptiveLoop]; simp [h1]

/-- Deep-crawl analogue: the merged item list is the concatenation of
the per-page lists in stream order. -/
theorem deepLoop_items_join (dex : Nat → Option Json) :
    ∀ (rs : List CrawlResult) (i : Nat),
      (deepLoop dex rs i).items = (deepLoop dex rs i).pages.join := by
  intro rs
  induction rs with
  | nil => intro i; simp [deepLoop]
  | cons r rest ih =>
    intro i
    rw [deepLoop]
    by_cases h : r.success = true
    · simp [h, ih]
    · simp [h, ih (i + 1)]

/-! ### Claim theorems -/

/-- C1: every run of `_run_adaptive_extraction` hands at most
`max_pages` URLs to `crawler.arun`, whatever the crawler and the LLM
return — the while-loop increments `pages_crawled` on every iteration
and is guarded by `pages_crawled < max_pages`, so it terminates and
never crawls more than `max_pages` pages. -/
theorem adaptive_crawl_page_budget (env : AdaptiveEnv) (start_url : String)
    (max_pages target_count : Nat) :
    (adaptiveRun env start_url max_pages target_count).trace.length ≤ max_pages := by
  simpa using adaptiveLoop_trace_le env max_pages target_count start_url [] [] 0

/-- C2: the adaptive loop de-duplicates pages through its visited set —
in every execution the list of URLs passed to `crawler.arun` contains no
duplicate, because each URL is added to `visited_urls` exactly when it
is about to be crawled and a candidate already in the set stops the loop
before the crawler is called. -/
theorem adaptive_crawl_no_revisit (env : AdaptiveEnv) (start_url : String)
    (max_pages target_count : Nat) :
    (adaptiveRun env start_url max_pages target_count).trace.Nodup :=
  (adaptiveLoop_trace_nodup_aux env max_pages target_count start_url [] [] 0).1

/-- C3: with `target_count > 0`, as soon as the accumulated items reach
`target_count` after processing a page, the loop breaks right after the
termination check: the current page is the last URL crawled, and the
accumulated items (initial list plus this page's contribution) are
returned unchanged — no further page is fetched. -/
theorem adaptive_target_count_break (env : AdaptiveEnv) (m t : Nat)
    (url : String) (items : List Json) (vis : List String) (p : Nat)
    (h1 : p < m) (h2 : url ∉ vis) (h3 : (env.crawl p).success = true)
    (h4 : 0 < t)
    (h5 : t ≤ (items ++ adaptiveContrib (env.extractParsed p)).length) :
    adaptiveLoop env m t url items vis p =
      ⟨[url], [adaptiveContrib (env.extractParsed p)],
        items ++ adaptiveContrib (env.extractParsed p)⟩ := by
  have h5' : t ≤ items.length + (adaptiveContrib (env.extractParsed p)).length := by
    simpa using h5
  rw [adaptiveLoop]
  simp [h1, h2, h3, h4, h5']

/-- Concrete environment for the C3 witness: the crawler succeeds and
each extraction parses to `{"data": ["q1", "q2"]}`. -/
def witnessAdaptiveEnv : AdaptiveEnv :=
  ⟨fun _ => ⟨true, "page markdown", ""⟩,
   fun _ => some (Json.obj [("data", Json.arr [Json.str "q1", Json.str "q2"])]),
   fun _ => some "/page/2"⟩

/-- Witness for C3: with `target_count = 2` met on the very first page,
the loop stops after one crawl even though `max_pages = 5` and a next
page was available. -/
theorem adaptive_target_count_break_witness :
    adaptiveLoop witnessAdaptiveEnv 5 2 "http://quotes.toscrape.com" [] [] 0 =
      ⟨["http://quotes.toscrape.com"],
        [adaptiveContrib (witnessAdaptiveEnv.extractParsed 0)],
        [] ++ adaptiveContrib (witnessAdaptiveEnv.extractParsed 0)⟩ :=
  adaptive_target_count_break witnessAdaptiveEnv 5 2 "http://quotes.toscrape.com"
    [] [] 0 (by decide) (by decide) (by decide) (by decide) (by decide)

/-- C8: both multi-page extractions return the serialisation of an
object with the single key `"data"` holding a list, namely the
concatenation, in page-visit order, of the per-page `"data"` lists that
were merged; with no successful page or no parsed extraction the pages
contribute nothing and the result is the serialisation of
`{"data": []}`, never an error. -/
theorem extraction_returns_data_object (env : AdaptiveEnv) (start_url : String)
    (max_pages target_count : Nat) (results : List CrawlResult)
    (dex : Nat → Option Json) :
    run_adaptive_extraction env start_url max_pages target_count =
      Json.dumps (Json.obj [("data", Json.arr
        ((adaptiveRun env start_url max_pages target_count).pages.join))]) ∧
    run_deep_extraction results dex =
      Json.dumps (Json.obj [("data", Json.arr
        ((deepLoop dex results 0).pages.join))]) := by
  constructor
  · unfold run_adaptive_extraction adaptiveRun
    rw [adaptiveLoop_items_join, List.nil_append]
  · unfold run_deep_extraction
    rw [deepLoop_items_join]

/-- C5: every LLM-calling operation catches any exception and returns a
fixed default instead of propagating it (`none` is the exception path of
the underlying call): `IntentAnalyzer.analyze` returns `"summary"`,
`SchemaGenerator.generate_schema` the fallback schema with the single
required string field `"content"`, `ConfigExtractor.extract_config` the
config `strategy="simple"`, `target_count=0`, `max_pages=1`,
`_extract_with_llm` the string `"{}"`, and `_find_next_page` `None`;
being total Lean functions, none of them raises to its caller. -/
theorem llm_error_path_defaults (cur : String) :
    IntentAnalyzer_analyze none = Json.str "summary" ∧
    SchemaGenerator_generate_schema none = [("content", FieldType.fstr)] ∧
    ConfigExtractor_extract_config none =
      [("strategy", Json.str "simple"), ("target_count", Json.num 0),
       ("max_pages", Json.num 1)] ∧
    extract_with_llm none = "\x7b\x7d" ∧
    find_next_page none cur = none :=
  ⟨rfl, rfl, rfl, rfl, rfl⟩

/-- C9: `_find_next_page` returns `None` whenever the stripped LLM
response is empty or contains the substring `"None"` anywhere — so a
genuine next-page URL whose text happens to contain `"None"` is
discarded and pagination stops. -/
theorem find_next_page_none_guard (resp cur : String)
    (h : strip resp = "" ∨ strContains (strip resp) "None" = true) :
    find_next_page (some resp) cur = none := by
  unfold find_next_page
  rcases h with h | h
  · simp [h]
  · simp [h]

/-- Witness for C9: the genuine-looking relative link `/page/None2` is
thrown away because its text contains `"None"`. -/
theorem find_next_page_none_guard_witness :
    find_next_page (some "/page/None2") "http://quotes.toscrape.com/page/1" =
      none :=
  find_next_page_none_guard "/page/None2" "http://quotes.toscrape.com/page/1"
    (Or.inr (by decide))

/-- Concrete oracle bundle for the dispatch witnesses. -/
def witnessExtractionEnv : ExtractionEnv :=
  ⟨⟨fun _ => ⟨true, "page markdown", ""⟩, fun _ => none, fun _ => none⟩,
   [], fun _ => none, ⟨true, "page markdown", ""⟩, none⟩

/-- C10: with a missing (`None`) or empty API key, `run_extraction`
returns the fixed error string and invokes no strategy handler — the
result does not depend on any crawler or LLM oracle. -/
theorem run_extraction_requires_api_key (api_key : Option String)
    (url strategy : String) (max_pages target_count : Nat)
    (env : ExtractionEnv)
    (h : api_key = none ∨ api_key = some "") :
    run_extraction api_key url strategy max_pages target_count env =
      ("Error: API Key is required for extraction.", none) := by
  unfold run_extraction
  simp [h]

/-- Witness for C10 at a concrete call with `api_key = None`. -/
theorem run_extraction_requires_api_key_witness :
    run_extraction none "http://quotes.toscrape.com" "deep" 5 10
      witnessExtractionEnv =
      ("Error: API Key is required for extraction.", none) :=
  run_extraction_requires_api_key none "http://quotes.toscrape.com" "deep" 5 10
    witnessExtractionEnv (Or.inl rfl)

/-- C6: with a usable API key, `run_extraction` dispatches to exactly
one of the three strategy handlers: `"deep"` to the best-first deep
extraction, `"adaptive"` to the paginated adaptive loop, and every other
strategy value (including `"simple"`) to the single-page extraction. -/
theorem run_extraction_strategy_dispatch (api_key : Option String)
    (url strategy : String) (max_pages target_count : Nat)
    (env : ExtractionEnv)
    (hk1 : api_key ≠ none) (hk2 : api_key ≠ some "") :
    (strategy = "deep" →
      (run_extraction api_key url strategy max_pages target_count env).2 =
        some Handler.deepH) ∧
    (strategy = "adaptive" →
      (run_extraction api_key url strategy max_pages target_count env).2 =
        some Handler.adaptiveH) ∧
    (strategy ≠ "deep" → strategy ≠ "adaptive" →
      (run_extraction api_key url strategy max_pages target_count env).2 =
        some Handler.simpleH) := by
  have hk : ¬(api_key = none ∨ api_key = some "") := by
    rintro (h | h)
    · exact hk1 h
    · exact hk2 h
  unfold run_extraction
  refine ⟨?_, ?_, ?_⟩
  · rintro rfl
    simp [hk]
  · rintro rfl
    simp [hk]
  · intro h1 h2
    simp [hk, h1, h2]

/-- Witness for C6: a Groq-style key with strategy `"adaptive"` reaches
the adaptive handler. -/
theorem run_extraction_strategy_dispatch_witness :
    (run_extraction (some "gsk_key") "http://quotes.toscrape.com" "adaptive"
      3 0 witnessExtractionEnv).2 = some Handler.adaptiveH :=
  (run_extraction_strategy_dispatch (some "gsk_key") "http://quotes.toscrape.com"
    "adaptive" 3 0 witnessExtractionEnv (by decide) (by decide)).2.1 rfl

/-- Replacing the value of a present key makes it the value found by a
subsequent lookup. -/
theorem lookupField_map_set (k : String) (v : Json) :
    ∀ fs : List (String × Json), fs.any (fun p => p.1 == k) = true →
      lookupField (fs.map (fun p => if p.1 = k then (k, v) else p)) k =
        some v := by
  intro fs
  induction fs with
  | nil => intro h; simp at h
  | cons hd tl ih =>
    obtain ⟨a, b⟩ := hd
    intro h
    by_cases hk : a = k
    · subst hk
      simp only [List.map_cons]
      simp [lookupField]
    · have h' : tl.any (fun p => p.1 == k) = true := by
        simpa [hk] using h
      simp only [List.map_cons]
      rw [if_neg hk]
      simp [lookupField, hk, ih h']

/-- Appending a fresh binding makes it the value found by a subsequent
lookup. -/
theorem lookupField_append_set (k : String) (v : Json) :
    ∀ fs : List (String × Json), fs.any (fun p => p.1 == k) = false →
      lookupField (fs ++ [(k, v)]) k = some v := by
  intro fs
  induction fs with
  | nil => intro _; simp [lookupField]
  | cons hd tl ih =>
    obtain ⟨a, b⟩ := hd
    intro h
    simp only [List.any_cons, Bool.or_eq_false_iff] at h
    have ha : ¬a = k := by simpa using h.1
    simp [lookupField, ha, ih h.2]

/-- Python `config["strategy"] = "simple"` makes `"simple"` the looked
up strategy value afterwards. -/
theorem lookupField_setKey (fs : List (String × Json)) (k : String) (v : Json) :
    lookupField (setKey fs k v) k = some v := by
  unfold setKey
  cases hb : fs.any (fun p => p.1 == k) with
  | true =>
    simp only [if_pos]
    exact lookupField_map_set k v fs hb
  | false =>
    simp only [Bool.false_eq_true, if_false]
    exact lookupField_append_set k v fs hb

/-- C7: `ConfigExtractor.extract_config` always yields a config whose
`"strategy"` entry is one of `"simple"`, `"deep"`, `"adaptive"` — on the
success path any other strategy value is overwritten by `"simple"`, and
the error path returns the default config; by contrast `"target_count"`
and `"max_pages"` pass through unvalidated, e.g. a string survives. -/
theorem extract_config_strategy_in_range :
    (∀ resp : Option Json, ∃ s : String,
      lookupField (ConfigExtractor_extract_config resp) "strategy" =
        some (Json.str s) ∧ (s = "simple" ∨ s = "deep" ∨ s = "adaptive")) ∧
    lookupField (ConfigExtractor_extract_config (some (Json.obj
      [("strategy", Json.str "adaptive"), ("max_pages", Json.str "ten")])))
      "max_pages" = some (Json.str "ten") := by
  constructor
  · intro resp
    match resp with
    | none => exact ⟨"simple", rfl, Or.inl rfl⟩
    | some Json.null => exact ⟨"simple", rfl, Or.inl rfl⟩
    | some (Json.bool b) => exact ⟨"simple", rfl, Or.inl rfl⟩
    | some (Json.num n) => exact ⟨"simple", rfl, Or.inl rfl⟩
    | some (Json.str s) => exact ⟨"simple", rfl, Or.inl rfl⟩
    | some (Json.arr xs) => exact ⟨"simple", rfl, Or.inl rfl⟩
    | some (Json.obj fields) =>
      simp only [ConfigExtractor_extract_config]
      by_cases hv : validStrategy (lookupField fields "strategy") = true
      · rw [if_pos hv]
        cases hlk : lookupField fields "strategy" with
        | none => rw [hlk] at hv; simp [validStrategy] at hv
        | some j =>
          cases j with
          | str s =>
            rw [hlk] at hv
            simp only [validStrategy, Bool.or_eq_true, beq_iff_eq] at hv
            exact ⟨s, rfl, by tauto⟩
          | null => rw [hlk] at hv; simp [validStrategy] at hv
          | bool b => rw [hlk] at hv; simp [validStrategy] at hv
          | num n => rw [hlk] at hv; simp [validStrategy] at hv
          | arr xs => rw [hlk] at hv; simp [validStrategy] at hv
          | obj g => rw [hlk] at hv; simp [validStrategy] at hv
      · rw [if_neg hv]
        exact ⟨"simple",
          lookupField_setKey fields "strategy" (Json.str "simple"), Or.inl rfl⟩
  · rfl

/-- A string starting with `"//"` also starts with `"/"`. -/
theorem startsWith_slash_of_double (s : String)
    (h : strStartsWith s "//" = true) : strStartsWith s "/" = true := by
  unfold strStartsWith at h ⊢
  rw [show ("//" : String).data = ['/', '/'] from rfl] at h
  rw [show ("/" : String).data = ['/'] from rfl]
  cases hd : s.data with
  | nil => rw [hd] at h; simp [List.isPrefixOf] at h
  | cons c rest =>
    rw [hd] at h
    simp [List.isPrefixOf] at h ⊢
    exact h.1

/-- On a `"//"` link with a nonempty host, the model of `urljoin` takes
only the scheme from the base. -/
theorem urljoin_slash_double (s n l : String)
    (h : strStartsWith l "//" = true)
    (hh : (l.data.drop 2).takeWhile
        (fun c => !(c == '/' || c == '?' || c == '#')) ≠ []) :
    urljoin_slash s n l = s ++ ":" ++ l := by
  unfold urljoin_slash
  rw [h]
  rw [if_pos rfl]
  exact if_pos hh

/-- C4 counterexample: the scheme-relative link `//other.com/page/2`
starts with `"/"`, yet `_find_next_page` does not return the current
URL's scheme and netloc joined with that path — Python's `urljoin`
treats a `"//"` link as a network-path reference and keeps the link's
own host, so the result is `http://other.com/page/2`, not
`http://cur.com//other.com/page/2`. -/
theorem find_next_page_claim_counterexample :
    strStartsWith (strip "//other.com/page/2") "/" = true ∧
    find_next_page (some "//other.com/page/2") "http://cur.com/list" =
      some "http://other.com/page/2" ∧
    ¬ find_next_page (some "//other.com/page/2") "http://cur.com/list" =
      some ((urlparse_sn "http://cur.com/list").scheme ++ "://" ++
        (urlparse_sn "http://cur.com/list").netloc ++
        strip "//other.com/page/2") :=
  ⟨by decide, by decide, by decide⟩

/-- C4 (amended): after stripping whitespace, a surviving link that does
not start with `"/"` is returned unchanged; one that starts with `"/"`
but not `"//"` is resolved against the current URL's scheme and netloc
(with `urljoin` dot-segment normalisation of the path, which is plain
concatenation for a dot-free path); one that starts with `"//"` and
carries a host is resolved scheme-relative, keeping its own host. -/
theorem find_next_page_url_resolution (resp cur : String)
    (h1 : strip resp ≠ "") (h2 : strContains (strip resp) "None" = false) :
    (strStartsWith (strip resp) "/" = false →
      find_next_page (some resp) cur = some (strip resp)) ∧
    (strStartsWith (strip resp) "/" = true →
      strStartsWith (strip resp) "//" = false →
      find_next_page (some resp) cur =
        some ((urlparse_sn cur).scheme ++ "://" ++ (urlparse_sn cur).netloc ++
          String.mk (joinRef (strip resp).data))) ∧
    (strStartsWith (strip resp) "//" = true →
      ((strip resp).data.drop 2).takeWhile
          (fun c => !(c == '/' || c == '?' || c == '#')) ≠ [] →
      find_next_page (some resp) cur =
        some ((urlparse_sn cur).scheme ++ ":" ++ strip resp)) := by
  have he : (strip resp == "") = false := by
    simpa using h1
  refine ⟨?_, ?_, ?_⟩
  · intro h3
    unfold find_next_page
    simp [h2, he, h3]
  · intro h3 h4
    unfold find_next_page urljoin_slash
    simp [h2, he, h3, h4]
  · intro h3 h4
    have h3' := startsWith_slash_of_double _ h3
    have hs : find_next_page (some resp) cur =
        some (urljoin_slash (urlparse_sn cur).scheme (urlparse_sn cur).netloc
          (strip resp)) := by
      unfold find_next_page
      simp [h2, he, h3']
    rw [hs, urljoin_slash_double _ _ _ h3 h4]

/-- Witness for the amended C4 at the ordinary pagination case: a plain
absolute path is joined onto the current page's scheme and host. -/
theorem find_next_page_url_resolution_witness :
    find_next_page (some "/page/2") "http://quotes.toscrape.com/page/1" =
      some "http://quotes.toscrape.com/page/2" := by
  have h := (find_next_page_url_resolution "/page/2"
    "http://quotes.toscrape.com/page/1" (by decide) (by decide)).2.1
    (by decide) (by decide)
  exact h.trans (by decide)
